import Mathlib

/-!
# RetroSpec — verification of the model-invocation core

Shallow embedding of the RetroSpec repository's model-invocation code:

* `src/types.ts` — the `TimePoint`, `ReviewSource` and `ReviewData` records.
* `src/services/geminiService.ts` — the multi-candidate fallback variant of
  `analyzeDeviceReviews` (namespace `GeminiService`).
* `src/unnamed/part_000` — the single-attempt variant with a bare
  connectivity probe (namespace `Part000`).

The network, the JSON parser and the environment are modelled as explicit
oracles (`Env`): a call either throws with a message or returns a text body
plus optional grounding metadata, and parsing a text either throws or yields
a `ReviewData` payload.  JavaScript numbers are carried as `Int`: the code
performs no arithmetic on them, it only passes them through.  JavaScript
errors are carried as their message strings.
-/

namespace RetroSpec

/-! ## Data model (src/types.ts) -/

/-- `TimePoint` from src/types.ts. -/
structure TimePoint where
  label : String
  date : String
  score : Int
  summary : String
deriving DecidableEq, Repr

/-- `ReviewSource` from src/types.ts: one (title, uri) citation. -/
structure ReviewSource where
  title : String
  uri : String
deriving DecidableEq, Repr

/-- `ReviewData` from src/types.ts.  `JSON.parse` may populate any of these
fields, including `sources`; the invoker overwrites `sources` on return. -/
structure ReviewData where
  deviceName : String
  launchDate : String
  currentVerdict : String
  aggregateScore : Int
  reviewCount : Int
  confidenceScore : Int
  dataSourcesFound : List String
  timePoints : List TimePoint
  pros : List String
  cons : List String
  sources : List ReviewSource
deriving DecidableEq, Repr

/-! ## Response envelope: grounding metadata

`response.candidates?.[0]?.groundingMetadata?.groundingChunks` — every level
is optional, and each chunk may or may not carry a `web` record with an
optional `uri` and `title`. -/

/-- The `chunk.web` record: optional `uri` and `title` strings. -/
structure WebSource where
  uri : Option String
  title : Option String
deriving DecidableEq, Repr

/-- One grounding chunk; `web` may be absent. -/
structure GroundingChunk where
  web : Option WebSource
deriving DecidableEq, Repr

/-- `groundingMetadata`; its `groundingChunks` array may be absent. -/
structure GroundingMetadata where
  groundingChunks : Option (List GroundingChunk)
deriving DecidableEq, Repr

/-! ## JavaScript-semantics helpers -/

/-- JS truthiness of an optional string: `undefined`, `null` and `""` are
falsy, every other string is truthy. -/
def jsTruthy : Option String → Bool
  | none => false
  | some s => !s.isEmpty

/-- JS `hay.includes(needle)`: `needle` occurs contiguously in `hay`. -/
def containsSub (hay needle : String) : Bool :=
  decide (needle.data <:+: hay.data)

/-! ## Citation extraction (identical in both variant files)

```
const sources = groundingMetadata?.groundingChunks?.map((chunk) => {
  if (chunk.web?.uri) {
    return { title: chunk.web.title || "Source", uri: chunk.web.uri };
  }
  return null;
}).filter((s) => s !== null) || [];
```
-/

/-- The `.map` callback: a chunk becomes a `ReviewSource` when
`chunk.web?.uri` is truthy, with `title || "Source"`; otherwise `null`
(here `none`). -/
def chunkToSource (chunk : GroundingChunk) : Option ReviewSource :=
  match chunk.web with
  | some web =>
    match web.uri with
    | some uri =>
      if uri.isEmpty then none
      else
        some { title := match web.title with
                        | some t => if t.isEmpty then "Source" else t
                        | none => "Source",
               uri := uri }
    | none => none
  | none => none

/-- `groundingMetadata?.groundingChunks?.map(..).filter(s => s !== null) || []`:
mapping and then dropping the `null`s is `List.filterMap`; a missing
metadata record or a missing chunk array yields `[]`. -/
def extractSources (groundingMetadata : Option GroundingMetadata) : List ReviewSource :=
  match groundingMetadata with
  | some md =>
    match md.groundingChunks with
    | some chunks => chunks.filterMap chunkToSource
    | none => []
  | none => []

/-! ## Deduplication (identical in both variant files)

```
const uniqueSources = sources.filter((source, index, self) =>
  index === self.findIndex((t) => (t.uri === source.uri)));
```

`Array.prototype.filter` hands the callback the element, its index and the
whole array; it is embedded as recursion carrying the running index, with
the whole array captured in the callback. -/

/-- `Array.prototype.filter` with an index-aware callback, started at
index `i`. -/
def jsFilterIdx {α : Type} (f : α → Nat → Bool) : Nat → List α → List α
  | _, [] => []
  | i, a :: l => if f a i then a :: jsFilterIdx f (i + 1) l else jsFilterIdx f (i + 1) l

/-- The duplicate filter from the source: keep an element exactly when its
index equals the first index holding its `uri` (`Array.prototype.findIndex`
is `List.findIdx`; the callback always matches the element itself, so the
JS `-1` case cannot arise). -/
def uniqueSources (sources : List ReviewSource) : List ReviewSource :=
  jsFilterIdx
    (fun source index => sources.findIdx (fun t => t.uri == source.uri) == index)
    0 sources

/-- Modelled from the spec: "deduplicate by URI preserving first-seen
order" — keep each head and drop every later entry with the same `uri`,
regardless of its title.  This is the comparison point for the faithful
`uniqueSources` above. -/
def firstByUri : List ReviewSource → List ReviewSource
  | [] => []
  | s :: rest => s :: firstByUri (rest.filter (fun t => t.uri != s.uri))
termination_by l => l.length
decreasing_by
  simp only [List.length_cons]
  exact Nat.lt_succ_of_le (List.length_filter_le _ _)

/-- Proof-internal reformulation of the duplicate filter: keep an entry
exactly when its `uri` is not in the accumulator of already-seen uris. -/
def filterSeen (seen : List String) : List ReviewSource → List ReviewSource
  | [] => []
  | s :: rest =>
    if seen.contains s.uri then filterSeen seen rest
    else s :: filterSeen (s.uri :: seen) rest

/-! ## Query Composer: prompt template and response schema

The template literal in both variant files is the concatenation of three
fixed segments around `${today}` and `${query}`. -/

/-- Template text before `${today}`. -/
def promptSeg1 : String := "\n    Context: Today\x27s date is "

/-- Template text between `${today}` and `${query}`. -/
def promptSeg2 : String := ".\n    Analyze reviews for the device: \""

/-- Template text after `${query}`. -/
def promptSeg3 : String :=
  "\".\n    \n    1. Identify the official launch date.\n    2. Perform a deep and broad search for reviews.\n       - Search for \"Launch day reviews\" from major outlets.\n       - Search for \"Long term reviews\" from YouTube creators.\n       - CRITICAL: Search for \"User ratings\" and \"Aggregate reviews\".\n    3. Compare the sentiment over time (Launch vs Now).\n    4. Generate a sentiment score (0-100) for each time point.\n    5. Provide a final \"Buy/Wait/Skip\" verdict.\n    6. For \x27reviewCount\x27: Estimate the Total Market Sentiment Volume.\n    7. Calculate \x27confidenceScore\x27 (0-100).\n    8. Populate \x27dataSourcesFound\x27.\n    \n    Ensure the analysis captures the arc of the device\x27s lifespan.\n  "

/-- The prompt template literal (identical in both variant files). -/
def buildPrompt (today query : String) : String :=
  promptSeg1 ++ today ++ promptSeg2 ++ query ++ promptSeg3

/-- `SchemaType` values used by `reviewSchema`. -/
inductive SchemaType where
  | OBJECT
  | STRING
  | NUMBER
  | INTEGER
  | ARRAY
deriving DecidableEq, Repr

/-- A declarative schema node: type, optional description, named
properties, optional array item schema, required property names. -/
inductive Schema where
  | node (type : SchemaType) (description : Option String)
      (properties : List (String × Schema)) (items : Option Schema)
      (required : List String)

/-- The `required` list of a schema node. -/
def Schema.required : Schema → List String
  | .node _ _ _ _ r => r

/-- `reviewSchema` from both variant files (lines 18–57). -/
def reviewSchema : Schema :=
  .node .OBJECT none
    [ ("deviceName", .node .STRING (some "Correct official name of the device") [] none []),
      ("launchDate", .node .STRING (some "Launch date in YYYY-MM-DD format") [] none []),
      ("currentVerdict", .node .STRING
        (some "A short verdict: \x27Buy\x27, \x27Wait\x27, or \x27Skip\x27 based on current value") [] none []),
      ("aggregateScore", .node .NUMBER (some "Current overall score out of 100") [] none []),
      ("reviewCount", .node .INTEGER
        (some "The total volume of user and expert reviews considered.") [] none []),
      ("confidenceScore", .node .NUMBER
        (some "Confidence score (0-100) based on data volume and recency.") [] none []),
      ("dataSourcesFound", .node .ARRAY
        (some "List of primary domains where data was found")
        [] (some (.node .STRING none [] none [])) []),
      ("timePoints", .node .ARRAY none []
        (some (.node .OBJECT none
          [ ("label", .node .STRING (some "Time period label") [] none []),
            ("date", .node .STRING (some "Approximate date YYYY-MM-DD") [] none []),
            ("score", .node .NUMBER (some "Sentiment score out of 100") [] none []),
            ("summary", .node .STRING (some "Brief summary") [] none []) ]
          none ["label", "date", "score", "summary"])) []),
      ("pros", .node .ARRAY (some "List of consistent pros")
        [] (some (.node .STRING none [] none [])) []),
      ("cons", .node .ARRAY (some "List of consistent cons")
        [] (some (.node .STRING none [] none [])) []) ]
    none
    ["deviceName", "launchDate", "currentVerdict", "aggregateScore", "reviewCount",
     "confidenceScore", "dataSourcesFound", "timePoints", "pros", "cons"]

/-- §4.1 Query Composer: the pure function (query, today) ↦ (prompt, schema).
In the source these are the prompt template and the `reviewSchema`
constant handed to `getGenerativeModel`. -/
def composeQuery (query today : String) : String × Schema :=
  (buildPrompt today query, reviewSchema)

/-! ## Error classification -/

/-- The per-candidate credential check of geminiService.ts line 139 (and the
classification test of part_000 line 140):
`error.message?.includes("API Key") || error.message?.includes("403")`. -/
def isCredentialError (msg : String) : Bool :=
  containsSub msg "API Key" || containsSub msg "403"

/-- JS `${error}` for an Error modelled by its message: an Error with an
empty (falsy) message interpolates as `"Error"`.  This realises
`lastError?.message || lastError` on the error objects threaded through
the loop. -/
def errorText (msg : String) : String :=
  if msg.isEmpty then "Error" else msg

/-! ## The multi-candidate fallback variant (src/services/geminiService.ts) -/

namespace GeminiService

/-- `KNOWN_MODELS` from geminiService.ts lines 59–65. -/
def KNOWN_MODELS : List String :=
  ["gemini-2.0-flash-exp",
   "gemini-1.5-flash",
   "gemini-1.5-flash-002",
   "gemini-1.5-flash-8b",
   "gemini-1.5-pro"]

/-- Outcome of one `generateContent` + `response.text()` round-trip: either
the call throws with an error message, or it returns a text body together
with the (optional) response-level grounding metadata. -/
inductive CallOutcome where
  | threw (msg : String)
  | returned (text : String) (groundingMetadata : Option RetroSpec.GroundingMetadata)
deriving DecidableEq

/-- The invocation environment: the configured API key, the behaviour of a
model call per candidate model id, and the behaviour of `JSON.parse` per
text body. -/
structure Env where
  apiKey : Option String
  call : String → CallOutcome
  parse : String → Except String RetroSpec.ReviewData

/-- The body of one loop iteration (geminiService.ts lines 94–132): call
the model; an empty text body throws `"Empty response"`; otherwise parse
the body and return the payload with `sources` overwritten by the
deduplicated grounding citations.  Any thrown message is the iteration's
error. -/
def attemptModel (env : Env) (modelId : String) : Except String RetroSpec.ReviewData :=
  match env.call modelId with
  | .threw msg => .error msg
  | .returned text grounding =>
    if text.isEmpty then .error "Empty response"
    else
      match env.parse text with
      | .error msg => .error msg
      | .ok data =>
        .ok { data with
              sources := RetroSpec.uniqueSources (RetroSpec.extractSources grounding) }

/-- The final error message (geminiService.ts lines 149–156), from the last
recorded error. -/
def finalErrorMsg : Option String → String
  | some msg =>
    if RetroSpec.containsSub msg "API Key" then
      "Failed to analyze reviews. API Key configuration issue. (403). Raw: " ++ msg
    else
      "Failed to analyze reviews. All available models failed. Last error: "
        ++ RetroSpec.errorText msg
  | none => "Failed to analyze reviews. All available models failed. Last error: null"

/-- The candidate loop (geminiService.ts lines 90–156): on a successful
attempt stop and return; on a credential-classified error break out and
raise the final message; otherwise record the error and continue; when the
candidates are exhausted raise the final message built from the last
error. -/
def runLoop (env : Env) : List String → Option String → Except String RetroSpec.ReviewData
  | [], lastError => .error (finalErrorMsg lastError)
  | modelId :: rest, _lastError =>
    match attemptModel env modelId with
    | .ok data => .ok data
    | .error msg =>
      if RetroSpec.isCredentialError msg then .error (finalErrorMsg (some msg))
      else runLoop env rest (some msg)

/-- `analyzeDeviceReviews` (geminiService.ts lines 67–157): `getAIClient`
throws before the loop when the key is missing (falsy); otherwise the
candidate loop runs with no error recorded yet. -/
def analyzeDeviceReviews (env : Env) : Except String RetroSpec.ReviewData :=
  if RetroSpec.jsTruthy env.apiKey then runLoop env KNOWN_MODELS none
  else .error "API Key is missing. Please set VITE_API_KEY in your environment."

end GeminiService

/-! ## The single-attempt variant (src/unnamed/part_000) -/

namespace Part000

/-- The invocation environment of the single-attempt variant: the API key,
the outcome of the one tooled `gemini-1.5-flash` call, the outcome of the
bare no-tools probe call (`generateContent("Test")`, `getAIClient` throw
included), and `JSON.parse`. -/
structure Env where
  apiKey : Option String
  call : GeminiService.CallOutcome
  probeCall : Except String Unit
  parse : String → Except String RetroSpec.ReviewData

/-- The `try` body (part_000 lines 83–132): `getAIClient` (throws inside
the `try` when the key is missing), the tooled call, the empty-body guard
(`"Empty response from Gemini"`), `JSON.parse`, and the spread-then-override
return. -/
def tryBody (env : Env) : Except String RetroSpec.ReviewData :=
  if !(RetroSpec.jsTruthy env.apiKey) then
    .error "API Key is missing. Please set VITE_API_KEY in your environment."
  else
    match env.call with
    | .threw msg => .error msg
    | .returned text grounding =>
      if text.isEmpty then .error "Empty response from Gemini"
      else
        match env.parse text with
        | .error msg => .error msg
        | .ok data =>
          .ok { data with
                sources := RetroSpec.uniqueSources (RetroSpec.extractSources grounding) }

/-- The message-classification prefix (part_000 lines 138–146): the base
text plus at most one of the 403 / 404 / 429 explanations. -/
def classifyMsg (msg : String) : String :=
  let base := "Failed to analyze reviews. "
  if RetroSpec.containsSub msg "API Key" || RetroSpec.containsSub msg "403" then
    base ++ "API Key configuration issue. (403/Forbidden). "
  else if RetroSpec.containsSub msg "404" then
    base ++ "Model not found (404). Ensure you have access to gemini-1.5-flash. "
  else if RetroSpec.containsSub msg "429" then
    base ++ "Quota exceeded (429). "
  else base

/-- The `catch` handler (part_000 lines 134–165): when the classified
prefix does not mention "API Key", run the bare connectivity probe and
append the probe-dependent diagnosis; otherwise append the raw error. -/
def handleError (env : Env) (msg : String) : String :=
  let friendly := classifyMsg msg
  if !(RetroSpec.containsSub friendly "API Key") then
    match env.probeCall with
    | .ok _ =>
      friendly ++ "Basic connectivity works, but Search Tool failed. (Maybe your key doesn\x27t support Search?)"
    | .error fbMsg =>
      friendly ++ "API Key or Model completely invalid. Raw: " ++ fbMsg
  else
    friendly ++ "Raw Error: " ++ msg

/-- `analyzeDeviceReviews` (part_000 lines 59–167): run the `try` body and
translate any thrown message through the `catch` handler. -/
def analyzeDeviceReviews (env : Env) : Except String RetroSpec.ReviewData :=
  match tryBody env with
  | .ok data => .ok data
  | .error msg => .error (handleError env msg)

end Part000

/-! ## Concrete fixtures

Closed environments and payloads used to instantiate the theorems below on
concrete inputs. -/

/-- A concrete time point (the spec's §8 scenario). -/
def tpW : TimePoint :=
  { label := "Launch", date := "2023-10-12", score := 72, summary := "Mixed" }

/-- A concrete parsed payload.  Its `aggregateScore` is deliberately out of
the expected [0,100] range and its `sources` field is deliberately
non-empty, to exercise pass-through and overwrite behaviour. -/
def dW : ReviewData :=
  { deviceName := "Pixel 8 Pro", launchDate := "2023-10-12", currentVerdict := "Wait",
    aggregateScore := 150, reviewCount := 1000, confidenceScore := 80,
    dataSourcesFound := ["techradar.com"], timePoints := [tpW],
    pros := ["camera"], cons := ["price"],
    sources := [{ title := "FromModel", uri := "model.com/x" }] }

/-- Grounding metadata with two chunks sharing a URI under different
titles, one distinct chunk with no title, and one chunk with no web
record. -/
def gmW : GroundingMetadata :=
  { groundingChunks := some
      [ { web := some { uri := some "a.com/x", title := some "A1" } },
        { web := some { uri := some "a.com/x", title := some "A2" } },
        { web := some { uri := some "b.com/y", title := none } },
        { web := none } ] }

/-- Environment whose every call fails with an HTTP-403 message. -/
def envC2 : GeminiService.Env :=
  { apiKey := some "AIzaTest",
    call := fun _ => .threw "Request failed with status 403",
    parse := fun _ => .error "unreachable" }

/-- Environment where the first candidate fails with a 404 and the second
succeeds with no grounding metadata. -/
def envC3 : GeminiService.Env :=
  { apiKey := some "AIzaTest",
    call := fun m =>
      if m = "gemini-2.0-flash-exp" then .threw "model not found 404"
      else if m = "gemini-1.5-flash" then .returned "GOOD" none
      else .threw "unreachable",
    parse := fun t => if t = "GOOD" then .ok dW else .error "Unexpected token in JSON" }

/-- Environment whose every call fails with a quota message. -/
def envC4 : GeminiService.Env :=
  { apiKey := some "AIzaTest",
    call := fun _ => .threw "quota exceeded 429",
    parse := fun _ => .error "unreachable" }

/-- Environment where the first candidate returns an empty text body and
the second succeeds. -/
def envC5 : GeminiService.Env :=
  { apiKey := some "AIzaTest",
    call := fun m =>
      if m = "gemini-2.0-flash-exp" then .returned "" (some gmW)
      else if m = "gemini-1.5-flash" then .returned "GOOD" none
      else .threw "unreachable",
    parse := fun t => if t = "GOOD" then .ok dW else .error "Unexpected token in JSON" }

/-- `envC5` with the empty-body return replaced by a thrown
`"Empty response"` call error; identical elsewhere. -/
def env2C5 : GeminiService.Env :=
  { apiKey := some "AIzaTest",
    call := fun m =>
      if m = "gemini-2.0-flash-exp" then .threw "Empty response"
      else if m = "gemini-1.5-flash" then .returned "GOOD" none
      else .threw "unreachable",
    parse := fun t => if t = "GOOD" then .ok dW else .error "Unexpected token in JSON" }

/-- Single-attempt environment whose call returns an empty text body. -/
def envC5p : Part000.Env :=
  { apiKey := some "AIzaTest",
    call := .returned "" (some gmW),
    probeCall := .ok (),
    parse := fun t => if t = "GOOD" then .ok dW else .error "Unexpected token in JSON" }

/-- `envC5p` with the empty-body return replaced by a thrown
`"Empty response from Gemini"` call error; identical elsewhere. -/
def env2C5p : Part000.Env :=
  { apiKey := some "AIzaTest",
    call := .threw "Empty response from Gemini",
    probeCall := .ok (),
    parse := fun t => if t = "GOOD" then .ok dW else .error "Unexpected token in JSON" }

/-- Environment where the first candidate succeeds with grounding
metadata `gmW`. -/
def envC7 : GeminiService.Env :=
  { apiKey := some "AIzaTest",
    call := fun m =>
      if m = "gemini-2.0-flash-exp" then .returned "GOOD" (some gmW)
      else .threw "unreachable",
    parse := fun t => if t = "GOOD" then .ok dW else .error "Unexpected token in JSON" }

/-- The result returned from `envC7`: `dW` with `sources` overwritten by
the deduplicated grounding citations of `gmW`. -/
def rC7 : ReviewData :=
  { dW with sources := [{ title := "A1", uri := "a.com/x" },
                        { title := "Source", uri := "b.com/y" }] }

/-- Environment where the first candidate's call succeeds but its body
fails JSON parsing, and the second candidate succeeds. -/
def envC8 : GeminiService.Env :=
  { apiKey := some "AIzaTest",
    call := fun m =>
      if m = "gemini-2.0-flash-exp" then .returned "not json" none
      else if m = "gemini-1.5-flash" then .returned "GOOD" none
      else .threw "unreachable",
    parse := fun t => if t = "GOOD" then .ok dW else .error "Unexpected token in JSON" }

/-- Environment where every candidate's call succeeds but every body fails
JSON parsing. -/
def envC8b : GeminiService.Env :=
  { apiKey := some "AIzaTest",
    call := fun _ => .returned "not json" none,
    parse := fun t => if t = "GOOD" then .ok dW else .error "Unexpected token in JSON" }

/-- Single-attempt environment whose main call and probe call both fail
with network messages. -/
def envC9 : Part000.Env :=
  { apiKey := some "AIzaTest",
    call := .threw "fetch failed: 500",
    probeCall := .error "fetch failed: 500 again",
    parse := fun _ => .error "unreachable" }

/-- Environment for the fallback variant whose first candidate succeeds
with a payload carrying its own non-empty `sources` field and no grounding
metadata. -/
def envC10 : GeminiService.Env :=
  { apiKey := some "AIzaTest",
    call := fun m =>
      if m = "gemini-2.0-flash-exp" then .returned "GOOD" none
      else .threw "unreachable",
    parse := fun t => if t = "GOOD" then .ok dW else .error "Unexpected token in JSON" }

/-- Single-attempt environment whose call succeeds with grounding `gmW`. -/
def envC10b : Part000.Env :=
  { apiKey := some "AIzaTest",
    call := .returned "GOOD" (some gmW),
    probeCall := .ok (),
    parse := fun t => if t = "GOOD" then .ok dW else .error "Unexpected token in JSON" }

/-! ## Helper lemmas: substring containment -/

theorem containsSub_iff {hay needle : String} :
    containsSub hay needle = true ↔ needle.data <:+: hay.data := by
  simp [containsSub]

theorem containsSub_self (s : String) : containsSub s s = true :=
  containsSub_iff.mpr (List.infix_refl _)

theorem containsSub_append_right {b n : String} (a : String)
    (h : containsSub b n = true) : containsSub (a ++ b) n = true := by
  rw [containsSub_iff] at h ⊢
  rw [String.data_append]
  exact h.trans (List.suffix_append a.data b.data).isInfix

theorem containsSub_append_left {a n : String} (b : String)
    (h : containsSub a n = true) : containsSub (a ++ b) n = true := by
  rw [containsSub_iff] at h ⊢
  rw [String.data_append]
  exact h.trans (List.prefix_append a.data b.data).isInfix

theorem containsSub_empty_needle (s : String) : containsSub s "" = true :=
  containsSub_iff.mpr List.nil_infix

theorem containsSub_append_errorText (a m : String) :
    containsSub (a ++ errorText m) m = true := by
  unfold errorText
  by_cases h : m.isEmpty = true
  · rw [(String.isEmpty_iff m).mp h]
    exact containsSub_empty_needle _
  · rw [if_neg h]
    exact containsSub_append_right a (containsSub_self m)

/-! ## Helper lemmas: deduplication -/

theorem contains_iff_mem (l : List String) (u : String) :
    l.contains u = true ↔ u ∈ l := by
  simp [List.contains, List.elem_iff]

theorem filterSeen_congr :
    ∀ (l : List ReviewSource) (s1 s2 : List String),
      (∀ u, s1.contains u = s2.contains u) → filterSeen s1 l = filterSeen s2 l := by
  intro l
  induction l with
  | nil => intro s1 s2 _; rfl
  | cons a l' ih =>
    intro s1 s2 h
    simp only [filterSeen, h a.uri]
    by_cases hc : s2.contains a.uri = true
    · rw [if_pos hc, if_pos hc]
      exact ih s1 s2 h
    · rw [if_neg hc, if_neg hc]
      refine congrArg (a :: ·) (ih _ _ ?_)
      intro u
      rw [Bool.eq_iff_iff, contains_iff_mem, contains_iff_mem,
          List.mem_cons, List.mem_cons]
      constructor
      · rintro (rfl | hu)
        · exact Or.inl rfl
        · exact Or.inr ((contains_iff_mem s2 u).mp (h u ▸ (contains_iff_mem s1 u).mpr hu))
      · rintro (rfl | hu)
        · exact Or.inl rfl
        · exact Or.inr ((contains_iff_mem s1 u).mp ((h u).symm ▸ (contains_iff_mem s2 u).mpr hu))

theorem filterSeen_cons_filter :
    ∀ (l : List ReviewSource) (seen : List String) (u : String),
      filterSeen (u :: seen) l = filterSeen seen (l.filter (fun t => t.uri != u)) := by
  intro l
  induction l with
  | nil => intro seen u; rfl
  | cons a l' ih =>
    intro seen u
    by_cases hau : a.uri = u
    · have hfilter : (a.uri != u) = false := by simp [hau]
      have hcont : (u :: seen).contains a.uri = true :=
        (contains_iff_mem _ _).mpr (hau ▸ List.mem_cons_self _ _)
      simp only [List.filter_cons, hfilter, if_neg (by simp : ¬ (false = true))]
      simp only [filterSeen, if_pos hcont]
      exact ih seen u
    · have hfilter : (a.uri != u) = true := by simp [hau]
      simp only [List.filter_cons, hfilter, if_pos rfl]
      by_cases hc : seen.contains a.uri = true
      · have hcont : (u :: seen).contains a.uri = true :=
          (contains_iff_mem _ _).mpr (List.mem_cons_of_mem _ ((contains_iff_mem _ _).mp hc))
        simp only [filterSeen, if_pos hcont, if_pos hc]
        exact ih seen u
      · have hcont : (u :: seen).contains a.uri = false := by
          rw [Bool.eq_false_iff]
          intro hmem
          rcases List.mem_cons.mp ((contains_iff_mem _ _).mp hmem) with h1 | h2
          · exact hau h1
          · exact hc ((contains_iff_mem _ _).mpr h2)
        simp only [filterSeen, hcont, hc, Bool.false_eq_true, if_neg (by simp : ¬ (false = true))]
        refine congrArg (a :: ·) ?_
        calc filterSeen (a.uri :: u :: seen) l'
            = filterSeen (u :: a.uri :: seen) l' := by
              refine filterSeen_congr l' _ _ ?_
              intro v
              rw [Bool.eq_iff_iff, contains_iff_mem, contains_iff_mem]
              simp only [List.mem_cons]
              tauto
          _ = filterSeen (a.uri :: seen) (l'.filter (fun t => t.uri != u)) := ih _ u

theorem filterSeen_nil_eq_firstByUri :
    ∀ l : List ReviewSource, filterSeen [] l = firstByUri l := by
  intro l
  induction l using firstByUri.induct with
  | case1 => rw [firstByUri]; rfl
  | case2 s rest ih =>
    rw [firstByUri]
    have h0 : ([] : List String).contains s.uri = false := rfl
    simp only [filterSeen, h0, Bool.false_eq_true, if_false]
    rw [filterSeen_cons_filter, ih]

theorem findIdx_append_cons_self (pre sub' : List ReviewSource) (a : ReviewSource) :
    ((pre ++ a :: sub').findIdx (fun t => t.uri == a.uri) == pre.length)
      = !((pre.map (fun t => t.uri)).contains a.uri) := by
  rw [List.findIdx_append]
  by_cases hmem : ∃ x ∈ pre, (x.uri == a.uri) = true
  · have hlt : pre.findIdx (fun t => t.uri == a.uri) < pre.length :=
      List.findIdx_lt_length.mpr hmem
    rw [if_pos hlt]
    have hne : (pre.findIdx (fun t => t.uri == a.uri) == pre.length) = false := by
      rw [Bool.eq_false_iff]
      intro hbeq
      exact Nat.ne_of_lt hlt (beq_iff_eq.mp hbeq)
    have hcont : (pre.map (fun t => t.uri)).contains a.uri = true := by
      obtain ⟨x, hx, hxe⟩ := hmem
      exact (contains_iff_mem _ _).mpr (List.mem_map.mpr ⟨x, hx, beq_iff_eq.mp hxe⟩)
    rw [hne, hcont]
    rfl
  · have hall : ∀ x ∈ pre, ((fun t => t.uri == a.uri) x) = false := by
      intro x hx
      rcases Bool.eq_false_or_eq_true (x.uri == a.uri) with h | h
      · exact absurd ⟨x, hx, h⟩ hmem
      · simpa using h
    have heq : pre.findIdx (fun t => t.uri == a.uri) = pre.length :=
      List.findIdx_eq_length.mpr hall
    rw [if_neg (by rw [heq]; exact Nat.lt_irrefl _)]
    have hhead : (a :: sub').findIdx (fun t => t.uri == a.uri) = 0 := by
      rw [List.findIdx_cons]
      simp [beq_self_eq_true]
    have hcont : (pre.map (fun t => t.uri)).contains a.uri = false := by
      rw [Bool.eq_false_iff]
      intro hx
      obtain ⟨x, hxm, hxe⟩ := List.mem_map.mp ((contains_iff_mem _ _).mp hx)
      exact hmem ⟨x, hxm, beq_iff_eq.mpr hxe⟩
    rw [hhead, hcont]
    simp

theorem jsFilterIdx_findIdx_eq_filterSeen :
    ∀ (sub pre l : List ReviewSource), l = pre ++ sub →
      jsFilterIdx (fun s i => l.findIdx (fun t => t.uri == s.uri) == i) pre.length sub
        = filterSeen (pre.map (fun t => t.uri)) sub := by
  intro sub
  induction sub with
  | nil => intro pre l _; rfl
  | cons a sub' ih =>
    intro pre l hl
    subst hl
    have hkey := findIdx_append_cons_self pre sub' a
    have hpre : ((pre ++ [a]) : List ReviewSource) ++ sub' = pre ++ a :: sub' := by
      rw [List.append_assoc]; rfl
    have hlen : ((pre ++ [a]) : List ReviewSource).length = pre.length + 1 := by
      rw [List.length_append]; rfl
    have hih := ih (pre ++ [a]) (pre ++ a :: sub') hpre.symm
    rw [hlen] at hih
    by_cases hc : (pre.map (fun t => t.uri)).contains a.uri = true
    · have hcond : ((pre ++ a :: sub').findIdx (fun t => t.uri == a.uri) == pre.length) = false := by
        rw [hkey, hc]; rfl
      simp only [jsFilterIdx, hcond, Bool.false_eq_true,
        if_neg (by simp : ¬ (false = true))]
      simp only [filterSeen, hc, if_pos rfl]
      rw [hih]
      refine filterSeen_congr _ _ _ ?_
      intro u
      rw [Bool.eq_iff_iff, contains_iff_mem, contains_iff_mem]
      rw [List.map_append]
      simp only [List.mem_append, List.map_cons, List.map_nil, List.mem_singleton]
      constructor
      · rintro (hu | rfl)
        · exact hu
        · exact (contains_iff_mem _ _).mp hc
      · exact Or.inl
    · have hcfalse : (pre.map (fun t => t.uri)).contains a.uri = false :=
        Bool.eq_false_iff.mpr hc
      have hcond : ((pre ++ a :: sub').findIdx (fun t => t.uri == a.uri) == pre.length) = true := by
        rw [hkey, hcfalse]; rfl
      simp only [jsFilterIdx, hcond, if_pos rfl]
      simp only [filterSeen, hcfalse, Bool.false_eq_true,
        if_neg (by simp : ¬ (false = true))]
      refine congrArg (a :: ·) ?_
      rw [hih]
      refine filterSeen_congr _ _ _ ?_
      intro u
      rw [Bool.eq_iff_iff, contains_iff_mem, contains_iff_mem]
      rw [List.map_append]
      simp only [List.mem_append, List.map_cons, List.map_nil, List.mem_singleton,
        List.mem_cons]
      tauto

theorem uniqueSources_eq_firstByUri (l : List ReviewSource) :
    uniqueSources l = firstByUri l := by
  have h := jsFilterIdx_findIdx_eq_filterSeen l [] l rfl
  simp only [List.map_nil] at h
  rw [uniqueSources]
  rw [show ([] : List ReviewSource).length = 0 from rfl] at h
  rw [h, filterSeen_nil_eq_firstByUri]

/-! ## Helper lemmas: the candidate loop -/

namespace GeminiService

theorem runLoop_ok_head {env : Env} {m : String} {r : RetroSpec.ReviewData}
    (rest : List String) (le : Option String) (h : attemptModel env m = .ok r) :
    runLoop env (m :: rest) le = .ok r := by
  simp [runLoop, h]

theorem runLoop_skip {env : Env} {m msg : String}
    (rest : List String) (le : Option String)
    (h : attemptModel env m = .error msg) (hc : RetroSpec.isCredentialError msg = false) :
    runLoop env (m :: rest) le = runLoop env rest (some msg) := by
  simp [runLoop, h, hc]

theorem runLoop_credBreak {env : Env} {m msg : String}
    (rest : List String) (le : Option String)
    (h : attemptModel env m = .error msg) (hc : RetroSpec.isCredentialError msg = true) :
    runLoop env (m :: rest) le = .error (finalErrorMsg (some msg)) := by
  simp [runLoop, h, hc]

theorem runLoop_skip_all {env : Env} :
    ∀ (pre : List String),
      (∀ m' ∈ pre, ∃ msg', attemptModel env m' = .error msg'
          ∧ RetroSpec.isCredentialError msg' = false) →
      ∀ (l : List String) (le : Option String),
        ∃ le', runLoop env (pre ++ l) le = runLoop env l le' := by
  intro pre
  induction pre with
  | nil => intro _ l le; exact ⟨le, rfl⟩
  | cons m pre' ih =>
    intro h l le
    obtain ⟨msg, hm, hc⟩ := h m (List.mem_cons_self _ _)
    rw [List.cons_append, runLoop_skip _ _ hm hc]
    exact ih (fun m' hm' => h m' (List.mem_cons_of_mem _ hm')) l (some msg)

theorem runLoop_all_fail {env : Env} :
    ∀ (ms : List String) (mlast msgL : String) (le : Option String),
      (∀ m' ∈ ms, ∃ msg', attemptModel env m' = .error msg'
          ∧ RetroSpec.isCredentialError msg' = false) →
      attemptModel env mlast = .error msgL →
      RetroSpec.isCredentialError msgL = false →
      runLoop env (ms ++ [mlast]) le = .error (finalErrorMsg (some msgL)) := by
  intro ms
  induction ms with
  | nil =>
    intro mlast msgL le _ hL hcL
    rw [List.nil_append, runLoop_skip _ _ hL hcL]
    rfl
  | cons m ms' ih =>
    intro mlast msgL le h hL hcL
    obtain ⟨msg, hm, hc⟩ := h m (List.mem_cons_self _ _)
    rw [List.cons_append, runLoop_skip _ _ hm hc]
    exact ih mlast msgL (some msg) (fun m' hm' => h m' (List.mem_cons_of_mem _ hm')) hL hcL

theorem runLoop_ok_mem {env : Env} :
    ∀ (models : List String) (le : Option String) (r : RetroSpec.ReviewData),
      runLoop env models le = .ok r → ∃ m ∈ models, attemptModel env m = .ok r := by
  intro models
  induction models with
  | nil => intro le r h; exact absurd h (by simp [runLoop])
  | cons m rest ih =>
    intro le r h
    rcases ha : attemptModel env m with msg | d
    · rcases hc : RetroSpec.isCredentialError msg with _ | _
      · rw [runLoop_skip rest le ha hc] at h
        obtain ⟨m', hm', hok⟩ := ih (some msg) r h
        exact ⟨m', List.mem_cons_of_mem _ hm', hok⟩
      · rw [runLoop_credBreak rest le ha hc] at h
        exact Except.noConfusion h
    · rw [runLoop_ok_head rest le ha] at h
      cases h
      exact ⟨m, List.mem_cons_self _ _, ha⟩

theorem attemptModel_ok_inv {env : Env} {m : String} {r : RetroSpec.ReviewData}
    (h : attemptModel env m = .ok r) :
    ∃ text grounding data,
      env.call m = .returned text grounding ∧ text.isEmpty = false ∧
      env.parse text = .ok data ∧
      r = { data with
            sources := RetroSpec.uniqueSources (RetroSpec.extractSources grounding) } := by
  unfold attemptModel at h
  split at h
  · exact Except.noConfusion h
  · next text grounding hcall =>
    split at h
    · exact Except.noConfusion h
    · next hne =>
      split at h
      · exact Except.noConfusion h
      · next data hparse =>
        cases h
        exact ⟨text, grounding, data, hcall, Bool.eq_false_iff.mpr hne, hparse, rfl⟩

theorem analyzeDeviceReviews_ok_inv {env : Env} {r : RetroSpec.ReviewData}
    (h : analyzeDeviceReviews env = .ok r) :
    RetroSpec.jsTruthy env.apiKey = true ∧
      ∃ m ∈ KNOWN_MODELS, attemptModel env m = .ok r := by
  unfold analyzeDeviceReviews at h
  split at h
  · next hk => exact ⟨hk, runLoop_ok_mem KNOWN_MODELS none r h⟩
  · exact Except.noConfusion h

theorem attemptModel_congr {env env2 : Env} {m : String}
    (hparse : env2.parse = env.parse) (hcall : env2.call m = env.call m) :
    attemptModel env2 m = attemptModel env m := by
  unfold attemptModel
  rw [hparse, hcall]

theorem runLoop_congr {env env2 : Env}
    (h : ∀ m, attemptModel env2 m = attemptModel env m) :
    ∀ (models : List String) (le : Option String),
      runLoop env2 models le = runLoop env models le := by
  intro models
  induction models with
  | nil => intro le; rfl
  | cons m rest ih =>
    intro le
    rcases ha : attemptModel env m with msg | d
    · have ha2 : attemptModel env2 m = .error msg := (h m).trans ha
      rcases hc : RetroSpec.isCredentialError msg with _ | _
      · rw [runLoop_skip rest le ha hc, runLoop_skip rest le ha2 hc]
        exact ih (some msg)
      · rw [runLoop_credBreak rest le ha hc, runLoop_credBreak rest le ha2 hc]
    · rw [runLoop_ok_head rest le ha, runLoop_ok_head rest le ((h m).trans ha)]

end GeminiService

theorem string_eq_empty_of_data_nil {s : String} (h : s.data = []) : s = "" := by
  cases s with
  | mk sdata =>
    change sdata = [] at h
    subst h
    rfl

theorem containsSub_nonempty {msg needle : String}
    (hn : needle ≠ "") (h : containsSub msg needle = true) : msg.isEmpty = false := by
  rcases Bool.eq_false_or_eq_true msg.isEmpty with he | he
  · exfalso
    rw [(String.isEmpty_iff msg).mp he] at h
    obtain ⟨s, t, hst⟩ := containsSub_iff.mp h
    have h0 : ("" : String).data = [] := rfl
    rw [h0] at hst
    have hlen := congrArg List.length hst
    simp only [List.length_append, List.length_nil] at hlen
    have hz : needle.data.length = 0 := by omega
    exact hn (string_eq_empty_of_data_nil (List.length_eq_zero.mp hz))
  · exact he

theorem errorText_contains {msg needle : String} (hn : needle ≠ "")
    (h : containsSub msg needle = true) (a : String) :
    containsSub (a ++ errorText msg) needle = true := by
  unfold errorText
  rw [if_neg (by simp [containsSub_nonempty hn h])]
  exact containsSub_append_right a h

theorem isCredentialError_finalErrorMsg {msg : String}
    (h : isCredentialError msg = true) :
    isCredentialError (GeminiService.finalErrorMsg (some msg)) = true := by
  unfold isCredentialError at h ⊢
  simp only [GeminiService.finalErrorMsg]
  rcases hak : containsSub msg "API Key" with _ | _
  · rw [hak, Bool.false_or] at h
    rw [if_neg (by simp [hak])]
    rw [errorText_contains (by decide) h _, Bool.or_true]
  · rw [if_pos (show (true : Bool) = true from rfl)]
    rw [containsSub_append_right _ hak, Bool.true_or]

namespace GeminiService

theorem analyze_key_true {env : Env} (hkey : RetroSpec.jsTruthy env.apiKey = true) :
    analyzeDeviceReviews env = runLoop env KNOWN_MODELS none := by
  unfold analyzeDeviceReviews
  rw [if_pos hkey]

theorem analyze_exhausted {env : Env} {msgL : String}
    (hfail : ∀ m ∈ KNOWN_MODELS, ∃ msg, attemptModel env m = .error msg
        ∧ RetroSpec.isCredentialError msg = false)
    (hlast : attemptModel env "gemini-1.5-pro" = .error msgL)
    (hkey : RetroSpec.jsTruthy env.apiKey = true) :
    analyzeDeviceReviews env = .error (finalErrorMsg (some msgL)) ∧
    RetroSpec.containsSub (finalErrorMsg (some msgL)) msgL = true := by
  have hmemlast : "gemini-1.5-pro" ∈ KNOWN_MODELS := by decide
  obtain ⟨msg', hm', hc'⟩ := hfail _ hmemlast
  have hinj := hm'.symm.trans hlast
  injection hinj with hmsgL
  rw [hmsgL] at hc'
  have hcL : RetroSpec.isCredentialError msgL = false := hc'
  constructor
  · rw [analyze_key_true hkey]
    have hsplit : KNOWN_MODELS =
        ["gemini-2.0-flash-exp", "gemini-1.5-flash", "gemini-1.5-flash-002",
         "gemini-1.5-flash-8b"] ++ ["gemini-1.5-pro"] := rfl
    rw [hsplit]
    refine runLoop_all_fail _ _ msgL none ?_ hlast hcL
    intro m' hm'
    exact hfail m' (by rw [hsplit]; exact List.mem_append_left _ hm')
  · simp only [finalErrorMsg]
    have hak : RetroSpec.containsSub msgL "API Key" = false := by
      rcases Bool.eq_false_or_eq_true (RetroSpec.containsSub msgL "API Key") with hx | hx
      · exfalso
        unfold RetroSpec.isCredentialError at hcL
        rw [hx, Bool.true_or] at hcL
        exact Bool.noConfusion hcL
      · exact hx
    rw [if_neg (by simp [hak])]
    by_cases hne : msgL = ""
    · subst hne
      exact RetroSpec.containsSub_empty_needle _
    · exact RetroSpec.errorText_contains hne
        (RetroSpec.containsSub_self msgL) _

theorem analyze_ok_full {env : Env} {r : RetroSpec.ReviewData}
    (h : analyzeDeviceReviews env = .ok r) :
    RetroSpec.jsTruthy env.apiKey = true ∧
    ∃ m text grounding data, m ∈ KNOWN_MODELS ∧
      env.call m = .returned text grounding ∧ text.isEmpty = false ∧
      env.parse text = .ok data ∧
      r = { data with
            sources := RetroSpec.uniqueSources (RetroSpec.extractSources grounding) } := by
  obtain ⟨hkey, m, hmem, hok⟩ := analyzeDeviceReviews_ok_inv h
  obtain ⟨text, grounding, data, hcall, hne, hparse, hr⟩ := attemptModel_ok_inv hok
  exact ⟨hkey, m, text, grounding, data, hmem, hcall, hne, hparse, hr⟩

end GeminiService

namespace Part000

theorem tryBody_ok_inv {env : Env} {r : RetroSpec.ReviewData}
    (h : tryBody env = .ok r) :
    RetroSpec.jsTruthy env.apiKey = true ∧
    ∃ text grounding data,
      env.call = .returned text grounding ∧ text.isEmpty = false ∧
      env.parse text = .ok data ∧
      r = { data with
            sources := RetroSpec.uniqueSources (RetroSpec.extractSources grounding) } := by
  unfold tryBody at h
  split at h
  · exact Except.noConfusion h
  · next hkey =>
    have hkey' : RetroSpec.jsTruthy env.apiKey = true := by
      rcases Bool.eq_false_or_eq_true (RetroSpec.jsTruthy env.apiKey) with hx | hx
      · exact hx
      · exact absurd (by rw [hx]; rfl) hkey
    refine ⟨hkey', ?_⟩
    split at h
    · exact Except.noConfusion h
    · next text grounding hcall =>
      split at h
      · exact Except.noConfusion h
      · next hne =>
        split at h
        · exact Except.noConfusion h
        · next data hparse =>
          cases h
          exact ⟨text, grounding, data, hcall, Bool.eq_false_iff.mpr hne, hparse, rfl⟩

theorem analyze_ok_of_tryBody {env : Env} {r : RetroSpec.ReviewData}
    (h : analyzeDeviceReviews env = .ok r) : tryBody env = .ok r := by
  unfold analyzeDeviceReviews at h
  split at h
  · next data heq => cases h; exact heq
  · exact Except.noConfusion h

theorem analyze_err_of_tryBody {env : Env} {msg : String}
    (h : tryBody env = .error msg) :
    analyzeDeviceReviews env = .error (handleError env msg) := by
  unfold analyzeDeviceReviews
  rw [h]

end Part000

/-! ## The claims -/

/-- C1: for every grounding-chunk list of a successful response, each chunk
is mapped to a (title, URI) pair, chunks lacking a (truthy) URI are
discarded, and the result is deduplicated by URI keeping exactly the
first-encountered entry in source order — `firstByUri`, the spec-side
dedup, is title-blind, so this holds even when duplicate URIs carry
differing titles; when no grounding metadata (or no chunk array) is
present, the extracted sources list is empty. -/
theorem sources_mapped_filtered_deduped :
    (∀ l : List ReviewSource, uniqueSources l = firstByUri l) ∧
    extractSources none = [] ∧
    (∀ chunks : List GroundingChunk,
      extractSources (some { groundingChunks := none }) = [] ∧
      extractSources (some { groundingChunks := some chunks })
        = chunks.filterMap chunkToSource) ∧
    (∀ c : GroundingChunk,
      jsTruthy (c.web.bind WebSource.uri) = false → chunkToSource c = none) ∧
    (∀ (c : GroundingChunk) (w : WebSource) (u : String),
      c.web = some w → w.uri = some u → u.isEmpty = false →
      chunkToSource c
        = some { title := match w.title with
                          | some t => if t.isEmpty then "Source" else t
                          | none => "Source",
                 uri := u }) := by
  refine ⟨uniqueSources_eq_firstByUri, rfl, fun chunks => ⟨rfl, rfl⟩, ?_, ?_⟩
  · intro c h
    rcases hw : c.web with _ | w
    · simp [chunkToSource, hw]
    · rcases hu : w.uri with _ | u
      · simp [chunkToSource, hw, hu]
      · have hwu : c.web.bind WebSource.uri = some u := by
          rw [hw]; exact hu
        rw [hwu] at h
        have hue : u.isEmpty = true := by
          rcases Bool.eq_false_or_eq_true u.isEmpty with ht | hf
          · exact ht
          · rw [show jsTruthy (some u) = !u.isEmpty from rfl, hf] at h
            exact Bool.noConfusion h
        simp [chunkToSource, hw, hu, hue]
  · intro c w u hw hu hne
    simp [chunkToSource, hw, hu, hne]

/-- Witness for `sources_mapped_filtered_deduped` on the spec's §8
scenario: two chunks with the same URI and differing titles plus one
distinct chunk give two deduplicated sources, the first-encountered entry
surviving. -/
theorem sources_mapped_filtered_deduped_witness :
    uniqueSources
        [{ title := "A1", uri := "a.com/x" }, { title := "A2", uri := "a.com/x" },
         { title := "B", uri := "b.com/y" }]
      = firstByUri
        [{ title := "A1", uri := "a.com/x" }, { title := "A2", uri := "a.com/x" },
         { title := "B", uri := "b.com/y" }] ∧
    uniqueSources
        [{ title := "A1", uri := "a.com/x" }, { title := "A2", uri := "a.com/x" },
         { title := "B", uri := "b.com/y" }]
      = [{ title := "A1", uri := "a.com/x" }, { title := "B", uri := "b.com/y" }] ∧
    extractSources (some gmW)
      = [{ title := "A1", uri := "a.com/x" }, { title := "A2", uri := "a.com/x" },
         { title := "Source", uri := "b.com/y" }] ∧
    uniqueSources (extractSources (some gmW))
      = [{ title := "A1", uri := "a.com/x" }, { title := "Source", uri := "b.com/y" }] ∧
    extractSources none = [] :=
  ⟨sources_mapped_filtered_deduped.1 _, by decide, by decide, by decide,
   sources_mapped_filtered_deduped.2.1⟩

/-- C2: in the multi-candidate fallback variant, a candidate failure whose
message is credential-classified (contains an API-key marker or an HTTP-403
indicator) makes the loop break: the outcome is fixed independently of the
remaining candidates, and the raised message is itself
credential-classified. -/
theorem credential_error_stops_fallback
    (env : GeminiService.Env) (m msg : String) (rest : List String) (le : Option String)
    (hfail : GeminiService.attemptModel env m = .error msg)
    (hcred : isCredentialError msg = true) :
    GeminiService.runLoop env (m :: rest) le
        = .error (GeminiService.finalErrorMsg (some msg)) ∧
    isCredentialError (GeminiService.finalErrorMsg (some msg)) = true ∧
    (∀ pre, (∀ m' ∈ pre, ∃ msg', GeminiService.attemptModel env m' = .error msg' ∧
          isCredentialError msg' = false) →
      jsTruthy env.apiKey = true →
      GeminiService.KNOWN_MODELS = pre ++ m :: rest →
      GeminiService.analyzeDeviceReviews env
          = .error (GeminiService.finalErrorMsg (some msg))) := by
  refine ⟨GeminiService.runLoop_credBreak rest le hfail hcred,
    isCredentialError_finalErrorMsg hcred, ?_⟩
  intro pre hpre hkey hsplit
  rw [GeminiService.analyze_key_true hkey, hsplit]
  obtain ⟨le', hle⟩ := GeminiService.runLoop_skip_all pre hpre (m :: rest) none
  rw [hle]
  exact GeminiService.runLoop_credBreak rest le' hfail hcred

/-- Witness for `credential_error_stops_fallback`: every call of `envC2`
fails with an HTTP-403 message; the whole invocation raises a
credential-classified message without consulting later candidates. -/
theorem credential_error_stops_fallback_witness :
    GeminiService.attemptModel envC2 "gemini-2.0-flash-exp"
        = .error "Request failed with status 403" ∧
    isCredentialError "Request failed with status 403" = true ∧
    GeminiService.analyzeDeviceReviews envC2
        = .error (GeminiService.finalErrorMsg (some "Request failed with status 403")) ∧
    isCredentialError
        (GeminiService.finalErrorMsg (some "Request failed with status 403")) = true :=
  have h := credential_error_stops_fallback envC2 "gemini-2.0-flash-exp"
    "Request failed with status 403"
    ["gemini-1.5-flash", "gemini-1.5-flash-002", "gemini-1.5-flash-8b", "gemini-1.5-pro"]
    none rfl (by decide)
  ⟨rfl, by decide, h.2.2 [] (by intro m' hm'; cases hm') rfl rfl, h.2.1⟩

/-- C3: in the multi-candidate fallback variant, when the first candidate
(and any candidates before some later one) fail with non-credential errors
and that later candidate succeeds, the invocation returns the later
candidate's parsed output and raises no error. -/
theorem fallback_continues_after_noncred_failure
    (env : GeminiService.Env) (m1 : String) (mid : List String) (m2 : String)
    (rest : List String) (r : ReviewData)
    (hfail : ∀ m ∈ m1 :: mid, ∃ msg, GeminiService.attemptModel env m = .error msg ∧
        isCredentialError msg = false)
    (hok : GeminiService.attemptModel env m2 = .ok r)
    (hkey : jsTruthy env.apiKey = true)
    (hsplit : GeminiService.KNOWN_MODELS = m1 :: (mid ++ m2 :: rest)) :
    GeminiService.analyzeDeviceReviews env = .ok r ∧
    (∀ le, GeminiService.runLoop env (m1 :: (mid ++ m2 :: rest)) le = .ok r) := by
  have hloop : ∀ le, GeminiService.runLoop env (m1 :: (mid ++ m2 :: rest)) le = .ok r := by
    intro le
    have heq : m1 :: (mid ++ m2 :: rest) = (m1 :: mid) ++ (m2 :: rest) := rfl
    rw [heq]
    obtain ⟨le', hle⟩ := GeminiService.runLoop_skip_all (m1 :: mid) hfail (m2 :: rest) le
    rw [hle]
    exact GeminiService.runLoop_ok_head rest le' hok
  exact ⟨by rw [GeminiService.analyze_key_true hkey, hsplit]; exact hloop none, hloop⟩

/-- Witness for `fallback_continues_after_noncred_failure`: in `envC3` the
first candidate throws a 404 and the second succeeds; the invocation
returns the second candidate's payload. -/
theorem fallback_continues_after_noncred_failure_witness :
    GeminiService.attemptModel envC3 "gemini-2.0-flash-exp"
        = .error "model not found 404" ∧
    isCredentialError "model not found 404" = false ∧
    GeminiService.attemptModel envC3 "gemini-1.5-flash" = .ok { dW with sources := [] } ∧
    GeminiService.analyzeDeviceReviews envC3 = .ok { dW with sources := [] } :=
  have h := fallback_continues_after_noncred_failure envC3 "gemini-2.0-flash-exp" []
    "gemini-1.5-flash" ["gemini-1.5-flash-002", "gemini-1.5-flash-8b", "gemini-1.5-pro"]
    { dW with sources := [] }
    (by
      intro m hm
      rw [List.mem_singleton] at hm
      subst hm
      exact ⟨"model not found 404", rfl, by decide⟩)
    rfl rfl rfl
  ⟨rfl, by decide, rfl, h.1⟩

/-- C4: in the multi-candidate fallback variant, when every candidate fails
and none of the failures is credential-classified, a single error is raised
whose message contains the text of the last underlying failure. -/
theorem exhaustion_reports_last_error
    (env : GeminiService.Env) (msgL : String)
    (hfail : ∀ m ∈ GeminiService.KNOWN_MODELS, ∃ msg,
        GeminiService.attemptModel env m = .error msg ∧ isCredentialError msg = false)
    (hlast : GeminiService.attemptModel env "gemini-1.5-pro" = .error msgL)
    (hkey : jsTruthy env.apiKey = true) :
    GeminiService.analyzeDeviceReviews env
        = .error (GeminiService.finalErrorMsg (some msgL)) ∧
    containsSub (GeminiService.finalErrorMsg (some msgL)) msgL = true :=
  GeminiService.analyze_exhausted hfail hlast hkey

/-- Witness for `exhaustion_reports_last_error`: every call of `envC4`
throws a quota message; the raised error contains that text. -/
theorem exhaustion_reports_last_error_witness :
    GeminiService.attemptModel envC4 "gemini-1.5-pro" = .error "quota exceeded 429" ∧
    isCredentialError "quota exceeded 429" = false ∧
    GeminiService.analyzeDeviceReviews envC4
        = .error (GeminiService.finalErrorMsg (some "quota exceeded 429")) ∧
    containsSub (GeminiService.finalErrorMsg (some "quota exceeded 429"))
        "quota exceeded 429" = true :=
  have h := exhaustion_reports_last_error envC4 "quota exceeded 429"
    (fun _ _ => ⟨"quota exceeded 429", rfl, by decide⟩) rfl rfl
  ⟨rfl, by decide, h.1, h.2⟩

/-- C5: a call that succeeds with an empty text body is treated
identically to a thrown call failure, and the body is never parsed.  In
the fallback variant the attempt yields the error `"Empty response"`
(under any parse oracle) and the loop and the invocation behave exactly as
if the call had thrown that error (proceeding to the next candidate).  In
the single-attempt variant the `try` body yields the error
`"Empty response from Gemini"` (under any parse oracle) and the invocation
behaves exactly as if the call had thrown that error (proceeding to the
probe/error path). -/
theorem empty_body_treated_as_failure :
    (∀ (env env2 : GeminiService.Env) (m : String) (g : Option GroundingMetadata),
      env.call m = .returned "" g →
      env2.call m = .threw "Empty response" →
      (∀ m', m' ≠ m → env2.call m' = env.call m') →
      env2.parse = env.parse →
      env2.apiKey = env.apiKey →
      GeminiService.attemptModel env m = .error "Empty response" ∧
      (∀ p, GeminiService.attemptModel { env with parse := p } m
          = .error "Empty response") ∧
      (∀ models le, GeminiService.runLoop env models le
          = GeminiService.runLoop env2 models le) ∧
      GeminiService.analyzeDeviceReviews env
          = GeminiService.analyzeDeviceReviews env2) ∧
    (∀ (env env2 : Part000.Env) (g : Option GroundingMetadata),
      env.call = .returned "" g →
      env2.call = .threw "Empty response from Gemini" →
      env2.probeCall = env.probeCall →
      env2.parse = env.parse →
      env2.apiKey = env.apiKey →
      jsTruthy env.apiKey = true →
      Part000.tryBody env = .error "Empty response from Gemini" ∧
      (∀ p, Part000.tryBody { env with parse := p }
          = .error "Empty response from Gemini") ∧
      Part000.tryBody env2 = .error "Empty response from Gemini" ∧
      Part000.analyzeDeviceReviews env = Part000.analyzeDeviceReviews env2) := by
  constructor
  · intro env env2 m g hret hthrew hother hparse hkey
    have h1 : GeminiService.attemptModel env m = .error "Empty response" := by
      unfold GeminiService.attemptModel
      rw [hret]
      rfl
    have h2 : ∀ p, GeminiService.attemptModel { env with parse := p } m
        = .error "Empty response" := by
      intro p
      unfold GeminiService.attemptModel
      rw [show ({ env with parse := p } : GeminiService.Env).call = env.call from rfl, hret]
      rfl
    have hcongr : ∀ m', GeminiService.attemptModel env2 m'
        = GeminiService.attemptModel env m' := by
      intro m'
      by_cases hm : m' = m
      · subst hm
        have h1' : GeminiService.attemptModel env2 m' = .error "Empty response" := by
          unfold GeminiService.attemptModel
          rw [hthrew]
        rw [h1', h1]
      · exact GeminiService.attemptModel_congr hparse (hother m' hm)
    have h3 : ∀ models le, GeminiService.runLoop env models le
        = GeminiService.runLoop env2 models le :=
      fun models le => (GeminiService.runLoop_congr hcongr models le).symm
    refine ⟨h1, h2, h3, ?_⟩
    unfold GeminiService.analyzeDeviceReviews
    rw [hkey]
    by_cases hk : jsTruthy env.apiKey = true
    · rw [if_pos hk, if_pos hk]
      exact h3 _ _
    · rw [if_neg hk, if_neg hk]
  · intro env env2 g hret hthrew hprobe hparse hkeyEq hkey
    have t1 : Part000.tryBody env = .error "Empty response from Gemini" := by
      unfold Part000.tryBody
      rw [hkey, hret]
      rfl
    have t2 : ∀ p, Part000.tryBody { env with parse := p }
        = .error "Empty response from Gemini" := by
      intro p
      unfold Part000.tryBody
      rw [show ({ env with parse := p } : Part000.Env).apiKey = env.apiKey from rfl,
          show ({ env with parse := p } : Part000.Env).call = env.call from rfl,
          hkey, hret]
      rfl
    have t3 : Part000.tryBody env2 = .error "Empty response from Gemini" := by
      unfold Part000.tryBody
      rw [hkeyEq, hkey, hthrew]
      rfl
    refine ⟨t1, t2, t3, ?_⟩
    unfold Part000.analyzeDeviceReviews
    rw [t1, t3]
    show Except.error (Part000.handleError env "Empty response from Gemini")
        = Except.error (Part000.handleError env2 "Empty response from Gemini")
    have hh : Part000.handleError env "Empty response from Gemini"
        = Part000.handleError env2 "Empty response from Gemini" := by
      simp only [Part000.handleError, hprobe]
    rw [hh]

/-- Witness for `empty_body_treated_as_failure`: `envC5` (first candidate
returns an empty body) and `env2C5` (first candidate throws) produce the
same invocation outcome, here the second candidate's payload; `envC5p`
(single-attempt call returns an empty body) and `env2C5p` (that call
throws) produce the same raised error. -/
theorem empty_body_treated_as_failure_witness :
    envC5.call "gemini-2.0-flash-exp" = .returned "" (some gmW) ∧
    env2C5.call "gemini-2.0-flash-exp" = .threw "Empty response" ∧
    GeminiService.attemptModel envC5 "gemini-2.0-flash-exp" = .error "Empty response" ∧
    GeminiService.analyzeDeviceReviews envC5 = GeminiService.analyzeDeviceReviews env2C5 ∧
    GeminiService.analyzeDeviceReviews envC5 = .ok { dW with sources := [] } ∧
    envC5p.call = .returned "" (some gmW) ∧
    env2C5p.call = .threw "Empty response from Gemini" ∧
    Part000.tryBody envC5p = .error "Empty response from Gemini" ∧
    Part000.analyzeDeviceReviews envC5p = Part000.analyzeDeviceReviews env2C5p :=
  have h1 := empty_body_treated_as_failure.1 envC5 env2C5 "gemini-2.0-flash-exp" (some gmW)
    rfl rfl
    (by
      intro m' hm
      show env2C5.call m' = envC5.call m'
      simp only [envC5, env2C5]
      rw [if_neg hm, if_neg hm])
    rfl rfl
  have h2 := empty_body_treated_as_failure.2 envC5p env2C5p (some gmW)
    rfl rfl rfl rfl rfl rfl
  ⟨rfl, rfl, h1.1, h1.2.2.2, rfl, rfl, rfl, h2.1, h2.2.2.2⟩

/-- C6: for every non-empty query string the composed prompt contains the
query text verbatim, and the schema — in particular its required-field
list — is the constant `reviewSchema`, identical across all calls;
`composeQuery` is a total pure function of (query, today). -/
theorem prompt_contains_query_schema_invariant
    (query today : String) (h : query ≠ "") :
    containsSub (composeQuery query today).1 query = true ∧
    (composeQuery query today).2 = reviewSchema ∧
    reviewSchema.required
      = ["deviceName", "launchDate", "currentVerdict", "aggregateScore", "reviewCount",
         "confidenceScore", "dataSourcesFound", "timePoints", "pros", "cons"] := by
  refine ⟨?_, rfl, rfl⟩
  refine containsSub_iff.mpr
    ⟨(promptSeg1 ++ today ++ promptSeg2).data, promptSeg3.data, ?_⟩
  show (promptSeg1 ++ today ++ promptSeg2).data ++ query.data ++ promptSeg3.data
      = (composeQuery query today).1.data
  simp [composeQuery, buildPrompt, String.data_append, List.append_assoc]

/-- Witness for `prompt_contains_query_schema_invariant` at the spec's §8
query string. -/
theorem prompt_contains_query_schema_invariant_witness :
    ("Pixel 8 Pro" : String) ≠ "" ∧
    containsSub (composeQuery "Pixel 8 Pro" "2026-10-11").1 "Pixel 8 Pro" = true ∧
    (composeQuery "Pixel 8 Pro" "2026-10-11").2 = reviewSchema :=
  have h := prompt_contains_query_schema_invariant "Pixel 8 Pro" "2026-10-11" (by decide)
  ⟨by decide, h.1, h.2.1⟩

/-- C7: on every successful invocation of the fallback variant, every field
of the parsed payload other than `sources` — device name, launch date,
verdict, `aggregateScore`, `reviewCount`, `confidenceScore`,
`dataSourcesFound`, the whole `timePoints` list (hence every time point's
label, date, score and summary), pros and cons — is returned to the caller
unchanged; no validation or clamping to [0,100] is applied to any numeric
field. -/
theorem payload_fields_passed_through_unvalidated
    (env : GeminiService.Env) (r : ReviewData)
    (h : GeminiService.analyzeDeviceReviews env = .ok r) :
    ∃ m text grounding data, m ∈ GeminiService.KNOWN_MODELS ∧
      env.call m = .returned text grounding ∧ env.parse text = .ok data ∧
      r.deviceName = data.deviceName ∧ r.launchDate = data.launchDate ∧
      r.currentVerdict = data.currentVerdict ∧ r.aggregateScore = data.aggregateScore ∧
      r.reviewCount = data.reviewCount ∧ r.confidenceScore = data.confidenceScore ∧
      r.dataSourcesFound = data.dataSourcesFound ∧ r.timePoints = data.timePoints ∧
      r.pros = data.pros ∧ r.cons = data.cons := by
  obtain ⟨-, m, text, grounding, data, hmem, hcall, -, hparse, hr⟩ :=
    GeminiService.analyze_ok_full h
  subst hr
  exact ⟨m, text, grounding, data, hmem, hcall, hparse,
    rfl, rfl, rfl, rfl, rfl, rfl, rfl, rfl, rfl, rfl⟩

/-- Witness for `payload_fields_passed_through_unvalidated`: `envC7`'s
parsed payload carries the out-of-range `aggregateScore` 150, which is
returned unchanged. -/
theorem payload_fields_passed_through_unvalidated_witness :
    GeminiService.analyzeDeviceReviews envC7 = .ok rC7 ∧
    rC7.aggregateScore = 150 ∧ dW.aggregateScore = 150 ∧
    (∃ m text grounding data, m ∈ GeminiService.KNOWN_MODELS ∧
      envC7.call m = .returned text grounding ∧ envC7.parse text = .ok data ∧
      rC7.deviceName = data.deviceName ∧ rC7.launchDate = data.launchDate ∧
      rC7.currentVerdict = data.currentVerdict ∧ rC7.aggregateScore = data.aggregateScore ∧
      rC7.reviewCount = data.reviewCount ∧ rC7.confidenceScore = data.confidenceScore ∧
      rC7.dataSourcesFound = data.dataSourcesFound ∧ rC7.timePoints = data.timePoints ∧
      rC7.pros = data.pros ∧ rC7.cons = data.cons) :=
  ⟨rfl, rfl, rfl, payload_fields_passed_through_unvalidated envC7 rC7 rfl⟩

/-- C10: on every successful return (in both variants) the result is
exactly the parsed payload with its `sources` field overwritten by the
deduplicated grounding-derived list — whatever `sources` key the model's
own JSON payload carried never appears in the returned result. -/
theorem sources_overwritten_by_grounding :
    (∀ (env : GeminiService.Env) (r : ReviewData),
      GeminiService.analyzeDeviceReviews env = .ok r →
      ∃ m text grounding data, m ∈ GeminiService.KNOWN_MODELS ∧
        env.call m = .returned text grounding ∧ env.parse text = .ok data ∧
        r = { data with sources := uniqueSources (extractSources grounding) } ∧
        r.sources = uniqueSources (extractSources grounding)) ∧
    (∀ (env : Part000.Env) (r : ReviewData),
      Part000.analyzeDeviceReviews env = .ok r →
      ∃ text grounding data,
        env.call = .returned text grounding ∧ env.parse text = .ok data ∧
        r = { data with sources := uniqueSources (extractSources grounding) } ∧
        r.sources = uniqueSources (extractSources grounding)) := by
  constructor
  · intro env r h
    obtain ⟨-, m, text, grounding, data, hmem, hcall, -, hparse, hr⟩ :=
      GeminiService.analyze_ok_full h
    exact ⟨m, text, grounding, data, hmem, hcall, hparse, hr, by rw [hr]⟩
  · intro env r h
    obtain ⟨-, text, grounding, data, hcall, -, hparse, hr⟩ :=
      Part000.tryBody_ok_inv (Part000.analyze_ok_of_tryBody h)
    exact ⟨text, grounding, data, hcall, hparse, hr, by rw [hr]⟩

/-- Witness for `sources_overwritten_by_grounding`: in `envC10` the parsed
payload `dW` carries its own non-empty `sources`, but with no grounding
metadata the returned `sources` is `[]`; in `envC10b` (single-attempt
variant) the returned `sources` is the deduplicated list from `gmW`. -/
theorem sources_overwritten_by_grounding_witness :
    GeminiService.analyzeDeviceReviews envC10 = .ok { dW with sources := [] } ∧
    dW.sources = [{ title := "FromModel", uri := "model.com/x" }] ∧
    Part000.analyzeDeviceReviews envC10b
        = .ok { dW with sources := [{ title := "A1", uri := "a.com/x" },
                                    { title := "Source", uri := "b.com/y" }] } ∧
    (∃ m text grounding data, m ∈ GeminiService.KNOWN_MODELS ∧
      envC10.call m = .returned text grounding ∧ envC10.parse text = .ok data ∧
      ({ dW with sources := ([] : List ReviewSource) })
        = { data with sources := uniqueSources (extractSources grounding) } ∧
      ({ dW with sources := ([] : List ReviewSource) }).sources
        = uniqueSources (extractSources grounding)) ∧
    (∃ text grounding data,
      envC10b.call = .returned text grounding ∧ envC10b.parse text = .ok data ∧
      ({ dW with sources := [{ title := "A1", uri := "a.com/x" },
                             { title := "Source", uri := "b.com/y" }] })
        = { data with sources := uniqueSources (extractSources grounding) } ∧
      ({ dW with sources := [{ title := "A1", uri := "a.com/x" },
                             { title := "Source", uri := "b.com/y" }] }).sources
        = uniqueSources (extractSources grounding)) :=
  ⟨rfl, rfl, rfl,
   sources_overwritten_by_grounding.1 envC10 _ rfl,
   sources_overwritten_by_grounding.2 envC10b _ rfl⟩

/-- C8 counterexample: in `envC8` the first candidate's call succeeds and
its text body fails JSON parsing, yet the invocation surfaces no error at
all — the next candidate succeeds and `analyzeDeviceReviews` returns its
payload, so no ParseFailure-classified error reaches the caller. -/
theorem parse_failure_not_surfaced_counterexample :
    envC8.call "gemini-2.0-flash-exp" = .returned "not json" none ∧
    envC8.parse "not json" = .error "Unexpected token in JSON" ∧
    GeminiService.analyzeDeviceReviews envC8 = .ok { dW with sources := [] } ∧
    (GeminiService.analyzeDeviceReviews envC8).isOk = true :=
  ⟨rfl, rfl, rfl, rfl⟩

/-- C8 (amended): a successful call whose text body fails JSON parsing is
treated as that attempt's failure carrying the parse error as its message,
and the malformed payload is never returned — every successfully returned
payload comes from a successful parse.  The failure is surfaced to the
caller only when it is terminal: in the fallback variant when every
candidate fails (the raised message then contains the last parse error's
text); in the single-attempt variant every `try`-body failure, parse
failures included, is surfaced through the `catch` handler. -/
theorem parse_failure_is_attempt_failure :
    (∀ (env : GeminiService.Env) (m text : String) (grounding : Option GroundingMetadata)
        (pmsg : String),
      env.call m = .returned text grounding → text.isEmpty = false →
      env.parse text = .error pmsg →
      GeminiService.attemptModel env m = .error pmsg) ∧
    (∀ (env : GeminiService.Env) (r : ReviewData),
      GeminiService.analyzeDeviceReviews env = .ok r →
      ∃ m text grounding data, m ∈ GeminiService.KNOWN_MODELS ∧
        env.call m = .returned text grounding ∧ env.parse text = .ok data ∧
        r = { data with sources := uniqueSources (extractSources grounding) }) ∧
    (∀ (env : GeminiService.Env) (pmsg : String),
      (∀ m ∈ GeminiService.KNOWN_MODELS, ∃ msg,
          GeminiService.attemptModel env m = .error msg ∧ isCredentialError msg = false) →
      GeminiService.attemptModel env "gemini-1.5-pro" = .error pmsg →
      jsTruthy env.apiKey = true →
      GeminiService.analyzeDeviceReviews env
          = .error (GeminiService.finalErrorMsg (some pmsg)) ∧
      containsSub (GeminiService.finalErrorMsg (some pmsg)) pmsg = true) ∧
    (∀ (env : Part000.Env) (msg : String),
      Part000.tryBody env = .error msg →
      Part000.analyzeDeviceReviews env = .error (Part000.handleError env msg)) := by
  refine ⟨?_, ?_, ?_, ?_⟩
  · intro env m text grounding pmsg hcall hne hparse
    simp only [GeminiService.attemptModel, hcall, hne, Bool.false_eq_true, if_false, hparse]
  · intro env r h
    obtain ⟨-, m, text, grounding, data, hmem, hcall, -, hparse, hr⟩ :=
      GeminiService.analyze_ok_full h
    exact ⟨m, text, grounding, data, hmem, hcall, hparse, hr⟩
  · intro env pmsg hfail hlast hkey
    exact GeminiService.analyze_exhausted hfail hlast hkey
  · intro env msg h
    exact Part000.analyze_err_of_tryBody h

/-- Witness for `parse_failure_is_attempt_failure`: in `envC8b` every body
fails parsing; the attempt fails with the parse message and the raised
error contains its text. -/
theorem parse_failure_is_attempt_failure_witness :
    GeminiService.attemptModel envC8b "gemini-2.0-flash-exp"
        = .error "Unexpected token in JSON" ∧
    (GeminiService.analyzeDeviceReviews envC8b
        = .error (GeminiService.finalErrorMsg (some "Unexpected token in JSON")) ∧
     containsSub (GeminiService.finalErrorMsg (some "Unexpected token in JSON"))
        "Unexpected token in JSON" = true) :=
  ⟨parse_failure_is_attempt_failure.1 envC8b "gemini-2.0-flash-exp" "not json" none
      "Unexpected token in JSON" rfl rfl rfl,
   parse_failure_is_attempt_failure.2.2.1 envC8b "Unexpected token in JSON"
      (fun _ _ => ⟨"Unexpected token in JSON", rfl, by decide⟩) rfl rfl⟩

set_option maxRecDepth 40000 in
theorem classifyMsg_noncred {msg : String} (hnc : isCredentialError msg = false) :
    containsSub (Part000.classifyMsg msg) "API Key" = false := by
  unfold isCredentialError at hnc
  have h1 : containsSub msg "API Key" = false := by
    rcases Bool.eq_false_or_eq_true (containsSub msg "API Key") with hx | hx
    · rw [hx, Bool.true_or] at hnc
      exact Bool.noConfusion hnc
    · exact hx
  have h2 : containsSub msg "403" = false := by
    rcases Bool.eq_false_or_eq_true (containsSub msg "403") with hx | hx
    · rw [hx, Bool.or_true] at hnc
      exact Bool.noConfusion hnc
    · exact hx
  simp only [Part000.classifyMsg]
  rw [h1, h2]
  simp only [Bool.or_false, Bool.false_eq_true, if_false]
  by_cases h4 : containsSub msg "404" = true
  · rw [if_pos h4]
    decide
  · rw [if_neg h4]
    by_cases h9 : containsSub msg "429" = true
    · rw [if_pos h9]
      decide
    · rw [if_neg h9]
      decide

/-- C9: in the single-attempt variant, when the primary attempt fails with
a non-credential-classified error, the bare connectivity probe decides the
raised message, and the operation still fails: the probe-failed case raises
the "completely invalid" diagnosis carrying the probe's raw error, the
probe-succeeded case raises the "Search Tool failed" diagnosis, and the two
messages can never coincide. -/
theorem probe_distinguishes_failure_modes
    (env : Part000.Env) (msg : String)
    (hfail : Part000.tryBody env = .error msg)
    (hnc : isCredentialError msg = false) :
    (env.probeCall = .ok () → Part000.analyzeDeviceReviews env
        = .error (Part000.classifyMsg msg
            ++ "Basic connectivity works, but Search Tool failed. (Maybe your key doesn\x27t support Search?)")) ∧
    (∀ fbMsg, env.probeCall = .error fbMsg → Part000.analyzeDeviceReviews env
        = .error (Part000.classifyMsg msg
            ++ "API Key or Model completely invalid. Raw: " ++ fbMsg)) ∧
    containsSub (Part000.classifyMsg msg) "API Key" = false ∧
    (∀ fbMsg,
      Part000.classifyMsg msg
          ++ "Basic connectivity works, but Search Tool failed. (Maybe your key doesn\x27t support Search?)"
        ≠ Part000.classifyMsg msg
          ++ "API Key or Model completely invalid. Raw: " ++ fbMsg) := by
  have herr := Part000.analyze_err_of_tryBody hfail
  have hclass := classifyMsg_noncred hnc
  refine ⟨?_, ?_, hclass, ?_⟩
  · intro hp
    have hmsg : Part000.handleError env msg = Part000.classifyMsg msg
        ++ "Basic connectivity works, but Search Tool failed. (Maybe your key doesn\x27t support Search?)" := by
      simp only [Part000.handleError, hclass, hp, Bool.not_false, if_true]
    rw [herr, hmsg]
  · intro fbMsg hp
    have hmsg : Part000.handleError env msg = Part000.classifyMsg msg
        ++ "API Key or Model completely invalid. Raw: " ++ fbMsg := by
      simp only [Part000.handleError, hclass, hp, Bool.not_false, if_true]
    rw [herr, hmsg]
  · intro fbMsg heq
    have hd := congrArg String.data heq
    simp only [String.data_append, List.append_assoc] at hd
    have hcancel := List.append_cancel_left hd
    have h2 := congrArg List.head? hcancel
    have hB : (("Basic connectivity works, but Search Tool failed. (Maybe your key doesn\x27t support Search?)" : String).data).head?
        = some 'B' := by decide
    have hA : (("API Key or Model completely invalid. Raw: " : String).data
        ++ fbMsg.data).head? = some 'A' := by
      have hcons : ("API Key or Model completely invalid. Raw: " : String).data
          = 'A' :: ("PI Key or Model completely invalid. Raw: " : String).data := by decide
      rw [hcons, List.cons_append]
      rfl
    rw [hB, hA] at h2
    exact absurd h2 (by decide)

/-- Witness for `probe_distinguishes_failure_modes`: `envC9`'s main call
and probe both fail with network messages; the raised error carries the
"completely invalid" diagnosis with the probe's raw text. -/
theorem probe_distinguishes_failure_modes_witness :
    Part000.tryBody envC9 = .error "fetch failed: 500" ∧
    isCredentialError "fetch failed: 500" = false ∧
    Part000.analyzeDeviceReviews envC9
      = .error (Part000.classifyMsg "fetch failed: 500"
          ++ "API Key or Model completely invalid. Raw: " ++ "fetch failed: 500 again") :=
  ⟨rfl, by decide,
   (probe_distinguishes_failure_modes envC9 "fetch failed: 500" rfl (by decide)).2.1
     "fetch failed: 500 again" rfl⟩

end RetroSpec

